import Mathlib

/-!
# pokeapi-go: the request pipeline of `client.go`

A shallow embedding of `src/client.go`: the configuration setter `SetAPIPath`,
the URL builder `buildURL`, the retrying fetcher `retryableGet` and the request
orchestrator `do`.

Conventions of the embedding.

* Package-level variables (`apiScheme`, `apiHost`, the cache `c`,
  `CacheSettings.UseCache`) are the fields of `State`; a function that writes
  one of them returns the new state.
* A Go `error` is an `Option Error` (`none` is `nil`); a Go `[]byte` result that
  may be `nil` is an `Option Bytes`.
* What the outside world decides (the outcome of each HTTP attempt, the clock,
  the expiry drawn for a cache entry, the JSON decoder) is an explicit argument.
* Side effects that leave no value behind (sleeping, sending a request) are
  recorded in an event list, in program order.
-/

namespace Pokeapi

/-! ## Data model -/

/-- A Go error value, identified by its message. -/
structure Error where
  msg : String
  deriving DecidableEq, Repr

/-- A Go byte slice. -/
abbrev Bytes := List UInt8

/-- The fields of a parsed `*url.URL` that `SetAPIPath` reads. -/
structure URL where
  Scheme : String
  Host : String
  deriving DecidableEq, Repr

/-- The type of `url.Parse`: a parsed URL or an error. -/
abbrev Parser := String → Except Error URL

def defaultAPIScheme : String := "https"
def defaultAPIHost : String := "pokeapi.co"
def defaultAPIUrl : String := "/api/v2/"
def httpRetries : Nat := 3

/-- One entry of the cache store: the stored bytes and the time after which the
entry is no longer returned. -/
structure Item where
  value : Bytes
  expiration : Nat
  deriving DecidableEq, Repr

/-- The key-value map held by the cache store. -/
abbrev Cache := String → Option Item

/-- The package-level variables of `client.go`. -/
structure State where
  apiScheme : String
  apiHost : String
  c : Cache
  UseCache : Bool

/-- The state after package initialisation with `POKEAPI_URL` unset: the
declared defaults and an empty cache. -/
def initialState (useCache : Bool) : State :=
  { apiScheme := defaultAPIScheme, apiHost := defaultAPIHost,
    c := fun _ => none, UseCache := useCache }

/-! ## The URL parser called by `SetAPIPath`

`url.Parse` belongs to the Go standard library (`net/url`), not to this
repository. The general results about `SetAPIPath` hold for every parser; the
definitions below follow the library's `Parse`, `parse`, `getScheme`,
`parseAuthority`, `parseHost` and `unescape` so that `SetAPIPath` can be
evaluated on concrete inputs. They compute the two fields `SetAPIPath` reads
(`Scheme`, `Host`) and whether parsing fails. Strings are handled as character
lists; every delimiter the parser looks for is ASCII. An error carries the
kind of the underlying error (the quoted offending text, and the `*url.Error`
wrapper that adds the operation and the URL, are not represented), and a `%XX`
escape is decoded to the character with code `XX`. -/

namespace NetURL

def isAlpha (c : Char) : Bool := ('a' ≤ c && c ≤ 'z') || ('A' ≤ c && c ≤ 'Z')

def isDigit (c : Char) : Bool := '0' ≤ c && c ≤ '9'

def ishex (c : Char) : Bool :=
  ('0' ≤ c && c ≤ '9') || ('a' ≤ c && c ≤ 'f') || ('A' ≤ c && c ≤ 'F')

def unhex (c : Char) : Nat :=
  if '0' ≤ c && c ≤ '9' then c.toNat - '0'.toNat
  else if 'a' ≤ c && c ≤ 'f' then c.toNat - 'a'.toNat + 10
  else if 'A' ≤ c && c ≤ 'F' then c.toNat - 'A'.toNat + 10
  else 0

/-- The characters before the first `sep` and those after it, when `sep` occurs. -/
def cut (sep : Char) : List Char → Option (List Char × List Char)
  | [] => none
  | c :: cs =>
    if c = sep then some ([], cs)
    else match cut sep cs with
      | none => none
      | some (a, b) => some (c :: a, b)

/-- The characters before the last `sep` and those after it, when `sep` occurs. -/
def cutLast (sep : Char) (s : List Char) : Option (List Char × List Char) :=
  match cut sep s.reverse with
  | none => none
  | some (a, b) => some (b.reverse, a.reverse)

/-- `split(s, sep, cutc)`: split at the first `sep`, dropping it when `cutc`. -/
def split (s : List Char) (sep : Char) (cutc : Bool) : List Char × List Char :=
  match cut sep s with
  | none => (s, [])
  | some (a, b) => if cutc then (a, b) else (a, sep :: b)

/-- `stringContainsCTLByte`: a byte below space, or DEL. -/
def stringContainsCTLByte (s : List Char) : Bool :=
  s.any fun b => b < ' ' || b.toNat = 0x7f

/-- `getScheme`, as a loop over the remaining characters at index `i`. -/
def getSchemeLoop (rawURL : List Char) : Nat → List Char → Except Error (List Char × List Char)
  | _, [] => .ok ([], rawURL)
  | i, c :: cs =>
    if isAlpha c then getSchemeLoop rawURL (i + 1) cs
    else if isDigit c || c = '+' || c = '-' || c = '.' then
      if i = 0 then .ok ([], rawURL) else getSchemeLoop rawURL (i + 1) cs
    else if c = ':' then
      if i = 0 then .error ⟨"missing protocol scheme"⟩
      else .ok (rawURL.take i, cs)
    else .ok ([], rawURL)

def getScheme (rawURL : List Char) : Except Error (List Char × List Char) :=
  getSchemeLoop rawURL 0 rawURL

/-- The escaping modes `unescape` distinguishes for the parts `Parse` decodes. -/
inductive Encoding
  | encodePath | encodeHost | encodeZone | encodeUserPassword | encodeFragment
  deriving DecidableEq, Repr

/-- `shouldEscape(c, encodeHost)`: outside the unreserved characters and the
extra characters a host may hold. -/
def shouldEscapeHost (c : Char) : Bool :=
  if isAlpha c || isDigit c then false
  else if c ∈ ['!', '$', '&', Char.ofNat 39, '(', ')', '*', '+', ',', ';', '=', ':',
      '[', ']', '<', '>', Char.ofNat 34] then false
  else if c ∈ ['-', '_', '.', '~'] then false
  else true

/-- `unescape(s, mode)`: the escapes are checked from left to right and the
first offence is the error; otherwise the result is the decoded string. -/
def unescape (mode : Encoding) : List Char → Except Error (List Char)
  | [] => .ok []
  | '%' :: a :: b :: rest =>
    if !ishex a || !ishex b then .error ⟨"invalid URL escape"⟩
    else if mode = .encodeHost && unhex a < 8 && !(a = '2' && b = '5') then
      .error ⟨"invalid URL escape"⟩
    else if mode = .encodeZone && !(a = '2' && b = '5')
        && unhex a * 16 + unhex b != 32
        && (unhex a * 16 + unhex b ≥ 128
            || shouldEscapeHost (Char.ofNat (unhex a * 16 + unhex b))) then
      .error ⟨"invalid URL escape"⟩
    else match unescape mode rest with
      | .error e => .error e
      | .ok r => .ok (Char.ofNat (unhex a * 16 + unhex b) :: r)
  | '%' :: _ => .error ⟨"invalid URL escape"⟩
  | c :: rest =>
    if (mode = .encodeHost || mode = .encodeZone) && c.toNat < 0x80 && shouldEscapeHost c then
      .error ⟨"invalid character in host name"⟩
    else match unescape mode rest with
      | .error e => .error e
      | .ok r => .ok (c :: r)

/-- `validOptionalPort`: empty, or a colon followed by digits only. -/
def validOptionalPort : List Char → Bool
  | [] => true
  | c :: cs => c = ':' && cs.all fun b => !(b < '0' || b > '9')

/-- `validUserinfo`. -/
def validUserinfo (s : List Char) : Bool :=
  s.all fun r => isAlpha r || isDigit r ||
    r ∈ ['-', '.', '_', ':', '~', '!', '$', '&', Char.ofNat 39, '(', ')', '*', '+', ',',
      ';', '=', '%', '@']

/-- The position of the first occurrence of `%25` in `s`, if any. -/
def indexPercent25 : List Char → Option Nat
  | [] => none
  | c :: cs =>
    if (c :: cs).take 3 = ['%', '2', '5'] then some 0
    else (indexPercent25 cs).map (· + 1)

/-- `parseHost`. -/
def parseHost (host : List Char) : Except Error (List Char) :=
  if host.head? = some '[' then
    match cutLast ']' host with
    | none => .error ⟨"missing ']' in host"⟩
    | some (before, colonPort) =>
      if !validOptionalPort colonPort then .error ⟨"invalid port after host"⟩
      else match indexPercent25 before with
        | some zone =>
          match unescape .encodeHost (before.take zone) with
          | .error e => .error e
          | .ok host1 =>
            match unescape .encodeZone (before.drop zone) with
            | .error e => .error e
            | .ok host2 =>
              match unescape .encodeHost (']' :: colonPort) with
              | .error e => .error e
              | .ok host3 => .ok (host1 ++ host2 ++ host3)
        | none => unescape .encodeHost host
  else
    match cutLast ':' host with
    | some (_, port) =>
      if !validOptionalPort (':' :: port) then .error ⟨"invalid port after host"⟩
      else unescape .encodeHost host
    | none => unescape .encodeHost host

/-- `parseAuthority`, keeping the host. The user information is checked and
decoded for its errors only. -/
def parseAuthority (authority : List Char) : Except Error (List Char) :=
  match cutLast '@' authority with
  | none => parseHost authority
  | some (userinfo, hostpart) =>
    match parseHost hostpart with
    | .error e => .error e
    | .ok host =>
      if !validUserinfo userinfo then .error ⟨"net/url: invalid userinfo"⟩
      else if !userinfo.contains ':' then
        match unescape .encodeUserPassword userinfo with
        | .error e => .error e
        | .ok _ => .ok host
      else
        match unescape .encodeUserPassword (split userinfo ':' true).1 with
        | .error e => .error e
        | .ok _ =>
          match unescape .encodeUserPassword (split userinfo ':' true).2 with
          | .error e => .error e
          | .ok _ => .ok host

/-- The query is removed from `rest`: a single trailing `?` is dropped, otherwise
`rest` is split at its first `?`. -/
def dropQuery (rest : List Char) : List Char :=
  if rest.getLast? = some '?' && rest.count '?' = 1 then rest.dropLast
  else (split rest '?' true).1

/-- `parse(rawURL, false)`: scheme and host of the URL without its fragment. -/
def parseNoFragment (rawURL : List Char) : Except Error (List Char × List Char) :=
  if stringContainsCTLByte rawURL then
    .error ⟨"net/url: invalid control character in URL"⟩
  else if rawURL = ['*'] then .ok ([], [])
  else match getScheme rawURL with
    | .error e => .error e
    | .ok (scheme0, rest0) =>
      let scheme := scheme0.map Char.toLower
      let rest := dropQuery rest0
      if rest.head? ≠ some '/' && scheme ≠ [] then .ok (scheme, [])
      else if rest.head? ≠ some '/' && (
          match cut ':' rest, cut '/' rest with
          | some (a, _), some (b, _) => a.length < b.length
          | some _, none => true
          | none, _ => false) then
        .error ⟨"first path segment in URL cannot contain colon"⟩
      else if (scheme ≠ [] || rest.take 3 ≠ ['/', '/', '/']) && rest.take 2 = ['/', '/'] then
        match parseAuthority (split (rest.drop 2) '/' false).1 with
        | .error e => .error e
        | .ok host =>
          match unescape .encodePath (split (rest.drop 2) '/' false).2 with
          | .error e => .error e
          | .ok _ => .ok (scheme, host)
      else
        match unescape .encodePath rest with
        | .error e => .error e
        | .ok _ => .ok (scheme, [])

/-- `url.Parse`: the fragment is cut off and decoded, the rest is parsed. -/
def Parse (rawURL : String) : Except Error URL :=
  match parseNoFragment (split rawURL.data '#' true).1 with
  | .error e => .error e
  | .ok (scheme, host) =>
    match unescape .encodeFragment (split rawURL.data '#' true).2 with
    | .error e => .error e
    | .ok _ => .ok { Scheme := String.mk scheme, Host := String.mk host }

end NetURL

/-! ## `SetAPIPath` and `buildURL` -/

/-- `SetAPIPath` of `client.go`, over the parser it calls (`url.Parse`). -/
def SetAPIPath (parse : Parser) (st : State) (path : String) : State × Option Error :=
  match parse path with
  | .error err => (st, some err)
  | .ok u =>
    if u.Host = "" then
      (st, some ⟨"failed to parse url host: " ++ u.Host⟩)
    else
      let st1 := { st with apiHost := u.Host }
      let st2 := { st1 with apiScheme := u.Scheme }
      let st3 := if st2.apiScheme = "" then { st2 with apiScheme := defaultAPIScheme } else st2
      (st3, none)

/-- `buildURL` of `client.go`: `fmt.Sprintf("%s://%s%s", apiScheme, apiHost,
defaultAPIUrl+endpoint)`. -/
def buildURL (st : State) (endpoint : String) : String :=
  st.apiScheme ++ "://" ++ st.apiHost ++ (defaultAPIUrl ++ endpoint)



/-! ## `retryableGet` -/

/-- What one iteration of the retry loop meets: `http.NewRequest` fails,
`client.Do` fails, or a response arrives with a status code and a body whose
reading (`ioutil.ReadAll`) fails or yields bytes. -/
inductive Attempt
  | requestError (err : Error)
  | transportError (err : Error)
  | response (StatusCode : Int) (body : Except Error Bytes)

/-- The observable effects of the retry loop, in program order. -/
inductive Event
  | sleep (seconds : Nat)
  | newRequest (url : String)
  | send (url : String)
  deriving DecidableEq, Repr

/-- The two return values of `retryableGet` and the effects it had. -/
structure GetResult where
  body : Option Bytes
  err : Option Error
  events : List Event

/-- The loop of `retryableGet`. `fuel` is the number of iterations left,
`httpRetries - attempt`; `outcomes attempt` is what iteration `attempt` meets. -/
def retryLoop (outcomes : Nat → Attempt) (resource : String) :
    Nat → Nat → Option Error → List Event → GetResult
  | 0, _, lasterr, evs => ⟨none, lasterr, evs⟩
  | fuel + 1, attempt, _, evs =>
    let evs1 := evs ++ [Event.sleep (attempt * attempt), Event.newRequest resource]
    match outcomes attempt with
    | .requestError err => retryLoop outcomes resource fuel (attempt + 1) (some err) evs1
    | .transportError err =>
      retryLoop outcomes resource fuel (attempt + 1) (some err) (evs1 ++ [Event.send resource])
    | .response StatusCode body =>
      let evs2 := evs1 ++ [Event.send resource]
      if StatusCode ≥ 500 then
        retryLoop outcomes resource fuel (attempt + 1)
          (some ⟨"server returned error (code: " ++ toString StatusCode ++ ")"⟩) evs2
      else if StatusCode ≥ 400 then
        ⟨none, some ⟨"failed to retrieve data from URL " ++ resource ++ " (code: "
          ++ toString StatusCode ++ ")"⟩, evs2⟩
      else
        match body with
        | .error err => retryLoop outcomes resource fuel (attempt + 1) (some err) evs2
        | .ok b => ⟨some b, none, evs2⟩

/-- `retryableGet` of `client.go`. -/
def retryableGet (outcomes : Nat → Attempt) (resource : String) : GetResult :=
  retryLoop outcomes resource httpRetries 0 none []

/-- The number of loop iterations an event list records. -/
def attempts (evs : List Event) : Nat :=
  evs.countP fun e => match e with
    | .newRequest _ => true
    | _ => false

/-- The number of requests handed to the HTTP client. -/
def requestsSent (evs : List Event) : Nat :=
  evs.countP fun e => match e with
    | .send _ => true
    | _ => false

/-- The backoff waits, in seconds, in the order they happened. -/
def waits (evs : List Event) : List Nat :=
  evs.filterMap fun e => match e with
    | .sleep n => some n
    | _ => none

/-- The spec's classification of one attempt ("fetch attempt result"): success
with bytes, a retryable failure, or a fatal failure, each failure with the
error it stands for. -/
inductive Verdict
  | success (bytes : Bytes)
  | retryable (reason : Error)
  | fatal (reason : Error)

/-- The spec's rules for one attempt on `resource`: a network-level error is
retryable; a status of 500 or more is retryable (a server error); a status in
[400, 500) is fatal (a client error naming the URL and the status); a status
below 400 is a success with the body bytes, or retryable when reading the body
fails. -/
def classify (resource : String) : Attempt → Verdict
  | .requestError err => .retryable err
  | .transportError err => .retryable err
  | .response status body =>
    if 500 ≤ status then
      .retryable ⟨"server returned error (code: " ++ toString status ++ ")"⟩
    else if 400 ≤ status ∧ status < 500 then
      .fatal ⟨"failed to retrieve data from URL " ++ resource ++ " (code: "
        ++ toString status ++ ")"⟩
    else
      match body with
      | .error err => .retryable err
      | .ok bytes => .success bytes

/-! ## The cache store and `do` -/

/-- Modelled from the spec: the cache store's `get` (the repository's cache
file is not among the sources). It returns the stored value when the key exists
and its entry has not expired; an entry is no longer returned once its expiry
time has elapsed. -/
def cacheGet (c : Cache) (now : Nat) (key : String) : Option Bytes :=
  match c key with
  | some item => if now ≤ item.expiration then some item.value else none
  | none => none

/-- Modelled from the spec: `setCache` (the repository's cache file is not among
the sources). It stores the bytes under the key, overwriting an earlier entry,
with the expiry time drawn for this entry. -/
def setCache (st : State) (endpoint : String) (body : Bytes) (expiration : Nat) : State :=
  { st with c := fun k => if k = endpoint then some ⟨body, expiration⟩ else st.c k }

/-- What the outside world decides during one call of `do`: the clock when the
cache is consulted, the outcome of each HTTP attempt, and the expiry time drawn
for the entry `setCache` writes. -/
structure Env where
  now : Nat
  outcomes : Nat → Attempt
  expiration : Nat

/-- The outcome of `do`: the new state, the caller's object, the returned
error, the argument of each call of `retryableGet`, and the fetcher's effects. -/
structure DoResult (α : Type) where
  st : State
  obj : α
  err : Option Error
  fetched : List String
  events : List Event

/-- `do` of `client.go`. `unmarshal data obj` is `json.Unmarshal(data, &obj)`:
the returned error and the object as the decoder leaves it. A `nil` body is the
empty byte slice. -/
def «do» {α : Type} (unmarshal : Bytes → α → Option Error × α) (env : Env) (st : State)
    (endpoint : String) (obj : α) : DoResult α :=
  match cacheGet st.c env.now endpoint, st.UseCache with
  | some cached, true =>
    ⟨st, (unmarshal cached obj).2, (unmarshal cached obj).1, [], []⟩
  | _, _ =>
    let r := retryableGet env.outcomes (buildURL st endpoint)
    match r.err with
    | some err => ⟨st, obj, some err, [buildURL st endpoint], r.events⟩
    | none =>
      let body := r.body.getD []
      let st1 := setCache st endpoint body env.expiration
      ⟨st1, (unmarshal body obj).2, (unmarshal body obj).1, [buildURL st endpoint], r.events⟩

/-! ## Sample inputs -/

/-- A decoder that accepts every body and leaves the body itself in the object. -/
def sampleDecoder : Bytes → Bytes → Option Error × Bytes :=
  fun data _ => (none, data)

/-- A decoder that rejects every body and leaves the object alone. -/
def failingDecoder : Bytes → Bytes → Option Error × Bytes :=
  fun _ obj => (some ⟨"unexpected end of JSON input"⟩, obj)

/-- At time 0 the first attempt answers 200 with body `{}`; the entry written
expires at time 10. -/
def sampleEnvOk : Env :=
  { now := 0, outcomes := fun _ => Attempt.response 200 (.ok [123, 125]), expiration := 10 }

/-- At time 5 the network is down. -/
def sampleEnvDown : Env :=
  { now := 5, outcomes := fun _ => Attempt.transportError ⟨"connection refused"⟩,
    expiration := 20 }

/-- Use-cache is disabled and `pokemon/1` is already cached, until time 100. -/
def sampleCachedState : State :=
  setCache (initialState false) "pokemon/1" [1] 100

/-! ## Configuration: `buildURL` and `SetAPIPath` -/

/-- C5: for every scheme, host and endpoint, `buildURL` is the concatenation
scheme, `://`, host, `/api/v2/`, endpoint; it is a total function returning a
string only (no error, no new state); with scheme `https` and host `pokeapi.co`
the endpoint `pokemon/1` gives exactly `https://pokeapi.co/api/v2/pokemon/1`. -/
theorem buildURL_concat (s h e : String) (c : Cache) (u : Bool) :
    buildURL ⟨s, h, c, u⟩ e = s ++ "://" ++ h ++ "/api/v2/" ++ e
    ∧ buildURL ⟨"https", "pokeapi.co", c, u⟩ "pokemon/1"
        = "https://pokeapi.co/api/v2/pokemon/1" := by
  constructor
  · simp [buildURL, defaultAPIUrl, String.append_assoc]
  · rfl

/-- `SetAPIPath` keeps a non-empty host and a non-empty scheme, whatever the
parser answers. -/
theorem SetAPIPath_preserves_nonempty (parse : Parser) (st : State) (path : String)
    (h : st.apiHost ≠ "" ∧ st.apiScheme ≠ "") :
    (SetAPIPath parse st path).1.apiHost ≠ ""
    ∧ (SetAPIPath parse st path).1.apiScheme ≠ "" := by
  unfold SetAPIPath
  cases hp : parse path with
  | error err => exact h
  | ok u =>
    by_cases hh : u.Host = ""
    · simp [hh, h.1, h.2]
    · by_cases hs : u.Scheme = ""
      · simp [hh, hs, defaultAPIScheme]
      · simp [hh, hs]

/-- C6, as the code behaves: for every prior state, `SetAPIPath(":::bad:::")`
returns the parse error and leaves the state as it was, while
`SetAPIPath("ftp://x")` returns no error and sets scheme `ftp` and host `x`. -/
theorem SetAPIPath_bad_and_ftp (st : State) :
    SetAPIPath NetURL.Parse st ":::bad:::" = (st, some ⟨"missing protocol scheme"⟩)
    ∧ (SetAPIPath NetURL.Parse st "ftp://x").2 = none
    ∧ (SetAPIPath NetURL.Parse st "ftp://x").1.apiScheme = "ftp"
    ∧ (SetAPIPath NetURL.Parse st "ftp://x").1.apiHost = "x" := by
  refine ⟨rfl, rfl, rfl, rfl⟩

/-- C6 fails as stated: from the initial configuration (`https`, `pokeapi.co`),
`SetAPIPath("ftp://x")` returns no error and the configuration becomes
(`ftp`, `x`). -/
theorem SetAPIPath_ftp_accepted :
    (SetAPIPath NetURL.Parse (initialState true) "ftp://x").2 = none
    ∧ (SetAPIPath NetURL.Parse (initialState true) "ftp://x").1.apiScheme = "ftp"
    ∧ (SetAPIPath NetURL.Parse (initialState true) "ftp://x").1.apiHost = "x"
    ∧ (initialState true).apiScheme = "https"
    ∧ (initialState true).apiHost = "pokeapi.co" := by
  refine ⟨rfl, rfl, rfl, rfl, rfl⟩

/-- C7: for every parser answer on the input. A URL with an empty host: an
error is returned and the state is unchanged. A URL with a non-empty host: no
error, the host becomes that host, the scheme becomes the parsed scheme, or
`https` when the parsed scheme is empty, and nothing else changes. A parse
failure: that error is returned and the state is unchanged. -/
theorem SetAPIPath_cases (parse : Parser) (st : State) (path : String) :
    (∀ u, parse path = .ok u → u.Host = "" →
        (SetAPIPath parse st path).1 = st ∧ (SetAPIPath parse st path).2 ≠ none)
    ∧ (∀ u, parse path = .ok u → u.Host ≠ "" →
        (SetAPIPath parse st path).2 = none
        ∧ (SetAPIPath parse st path).1.apiHost = u.Host
        ∧ (u.Scheme ≠ "" → (SetAPIPath parse st path).1.apiScheme = u.Scheme)
        ∧ (u.Scheme = "" → (SetAPIPath parse st path).1.apiScheme = "https")
        ∧ (SetAPIPath parse st path).1.c = st.c
        ∧ (SetAPIPath parse st path).1.UseCache = st.UseCache)
    ∧ (∀ e, parse path = .error e → SetAPIPath parse st path = (st, some e)) := by
  refine ⟨?_, ?_, ?_⟩
  · intro u hp hh
    simp [SetAPIPath, hp, hh]
  · intro u hp hh
    by_cases hs : u.Scheme = ""
    · simp [SetAPIPath, hp, hh, hs, defaultAPIScheme]
    · simp [SetAPIPath, hp, hh, hs]
  · intro e hp
    simp [SetAPIPath, hp]

/-- C7 at concrete inputs, with the library parser: `//example.org` (no scheme)
sets host `example.org` and scheme `https`; `http://localhost:8080` sets both;
`/only/a/path` has no host and is refused; `:::bad:::` does not parse. -/
theorem SetAPIPath_cases_witness :
    ((SetAPIPath NetURL.Parse (initialState true) "//example.org").1.apiHost = "example.org"
      ∧ (SetAPIPath NetURL.Parse (initialState true) "//example.org").1.apiScheme = "https")
    ∧ ((SetAPIPath NetURL.Parse (initialState true) "http://localhost:8080").1.apiHost
          = "localhost:8080"
      ∧ (SetAPIPath NetURL.Parse (initialState true) "http://localhost:8080").1.apiScheme
          = "http")
    ∧ (SetAPIPath NetURL.Parse (initialState true) "/only/a/path").2 ≠ none
    ∧ SetAPIPath NetURL.Parse (initialState true) ":::bad:::"
        = (initialState true, some ⟨"missing protocol scheme"⟩) := by
  have h1 := (SetAPIPath_cases NetURL.Parse (initialState true) "//example.org").2.1
    ⟨"", "example.org"⟩ rfl (by decide)
  have h2 := (SetAPIPath_cases NetURL.Parse (initialState true) "http://localhost:8080").2.1
    ⟨"http", "localhost:8080"⟩ rfl (by decide)
  have h3 := (SetAPIPath_cases NetURL.Parse (initialState true) "/only/a/path").1
    ⟨"", ""⟩ rfl rfl
  have h4 := (SetAPIPath_cases NetURL.Parse (initialState true) ":::bad:::").2.2
    ⟨"missing protocol scheme"⟩ rfl
  exact ⟨⟨h1.2.1, h1.2.2.2.1 rfl⟩, ⟨h2.2.1, h2.2.2.1 (by decide)⟩, h3.2, h4⟩

/-- C10: starting from the initial configuration (`https`, `pokeapi.co`), after
any finite sequence of `SetAPIPath` calls, with any inputs and any parser
answers, the configured host and the configured scheme are non-empty. -/
theorem SetAPIPath_sequence_nonempty (parse : Parser) (useCache : Bool)
    (inputs : List String) :
    (inputs.foldl (fun st path => (SetAPIPath parse st path).1)
        (initialState useCache)).apiHost ≠ ""
    ∧ (inputs.foldl (fun st path => (SetAPIPath parse st path).1)
        (initialState useCache)).apiScheme ≠ "" := by
  have key : ∀ (l : List String) (st : State), (st.apiHost ≠ "" ∧ st.apiScheme ≠ "") →
      ((l.foldl (fun st path => (SetAPIPath parse st path).1) st).apiHost ≠ ""
      ∧ (l.foldl (fun st path => (SetAPIPath parse st path).1) st).apiScheme ≠ "") := by
    intro l
    induction l with
    | nil => intro st h; exact h
    | cons p ps ih =>
      intro st h
      exact ih _ (SetAPIPath_preserves_nonempty parse st p h)
  exact key inputs (initialState useCache)
    ⟨(by decide : defaultAPIHost ≠ ""), (by decide : defaultAPIScheme ≠ "")⟩

/-! ## The retrying fetcher -/

theorem attempts_step (evs : List Event) (n : Nat) (u : String) :
    attempts (evs ++ [Event.sleep n, Event.newRequest u]) = attempts evs + 1
    ∧ attempts (evs ++ [Event.sleep n, Event.newRequest u] ++ [Event.send u])
        = attempts evs + 1 := by
  simp [attempts, List.countP_append, List.countP_cons]

/-- One iteration that meets a retryable outcome goes on with the next one,
having recorded that outcome's error and one more attempt. -/
theorem retryLoop_retryable (outcomes : Nat → Attempt) (u : String) (fuel k : Nat)
    (le : Option Error) (evs : List Event) (e : Error)
    (h : classify u (outcomes k) = .retryable e) :
    ∃ evs1, retryLoop outcomes u (fuel + 1) k le evs
        = retryLoop outcomes u fuel (k + 1) (some e) evs1
      ∧ attempts evs1 = attempts evs + 1 := by
  have hs := attempts_step evs (k * k) u
  cases ho : outcomes k with
  | requestError err =>
    simp only [ho, classify, Verdict.retryable.injEq] at h
    exact ⟨_, by simp only [retryLoop, ho, h], hs.1⟩
  | transportError err =>
    simp only [ho, classify, Verdict.retryable.injEq] at h
    exact ⟨_, by simp only [retryLoop, ho, h], hs.2⟩
  | response status body =>
    simp only [ho, classify] at h
    by_cases h5 : 500 ≤ status
    · simp only [h5, if_true, Verdict.retryable.injEq] at h
      refine ⟨_, ?_, hs.2⟩
      simp only [retryLoop, ho, ge_iff_le, h5, if_true, h]
    · by_cases h4 : 400 ≤ status
      · have : 400 ≤ status ∧ status < 500 := ⟨h4, by omega⟩
        simp [h5, this] at h
      · have h4n : ¬ (400 ≤ status ∧ status < 500) := fun hh => h4 hh.1
        cases body with
        | error err =>
          simp only [h5, h4n, if_false, Verdict.retryable.injEq] at h
          refine ⟨_, ?_, hs.2⟩
          simp only [retryLoop, ho, ge_iff_le, h5, h4, if_false, h]
        | ok b =>
          simp [h5, h4n] at h

/-- One iteration that meets a success or a fatal failure ends the loop with
that outcome, after one more attempt. -/
theorem retryLoop_final (outcomes : Nat → Attempt) (u : String) (fuel k : Nat)
    (le : Option Error) (evs : List Event) :
    (∀ b, classify u (outcomes k) = .success b →
      (retryLoop outcomes u (fuel + 1) k le evs).body = some b
      ∧ (retryLoop outcomes u (fuel + 1) k le evs).err = none
      ∧ attempts (retryLoop outcomes u (fuel + 1) k le evs).events = attempts evs + 1)
    ∧ (∀ e, classify u (outcomes k) = .fatal e →
      (retryLoop outcomes u (fuel + 1) k le evs).body = none
      ∧ (retryLoop outcomes u (fuel + 1) k le evs).err = some e
      ∧ attempts (retryLoop outcomes u (fuel + 1) k le evs).events = attempts evs + 1) := by
  have hs := attempts_step evs (k * k) u
  cases ho : outcomes k with
  | requestError err => simp [classify]
  | transportError err => simp [classify]
  | response status body =>
    by_cases h5 : 500 ≤ status
    · simp [classify, h5]
    · by_cases h4 : 400 ≤ status
      · have h45 : 400 ≤ status ∧ status < 500 := ⟨h4, by omega⟩
        refine ⟨by simp [classify, h5, h45], ?_⟩
        intro e he
        simp only [classify, h5, h45, if_false, if_true, and_self,
          Verdict.fatal.injEq] at he
        simp only [retryLoop, ho, ge_iff_le, h5, h4, if_false, if_true, he]
        exact ⟨trivial, trivial, hs.2⟩
      · have h4n : ¬ (400 ≤ status ∧ status < 500) := fun hh => h4 hh.1
        cases body with
        | error err => simp [classify, h5, h4n]
        | ok b =>
          refine ⟨?_, by simp [classify, h5, h4n]⟩
          intro b1 hb
          simp only [classify, h5, h4n, if_false, Verdict.success.injEq] at hb
          simp only [retryLoop, ho, ge_iff_le, h5, h4, if_false, hb]
          exact ⟨trivial, trivial, hs.2⟩

/-- C2: for every URL and every sequence of attempt outcomes, `retryableGet`
makes at most three attempts; if attempt `i` (among the first three) is the
first that is not a retryable failure, the call returns that attempt's result
(its body bytes and no error for a success, no bytes and its client error for a
fatal failure) after exactly `i + 1` attempts; if all three are retryable
failures, it returns no bytes and the error recorded by the third, after
exactly three attempts. -/
theorem retryableGet_first_final (outcomes : Nat → Attempt) (u : String) :
    attempts (retryableGet outcomes u).events ≤ 3
    ∧ (∀ i b, i < 3 → (∀ j, j < i → ∃ e, classify u (outcomes j) = .retryable e) →
        classify u (outcomes i) = .success b →
        (retryableGet outcomes u).body = some b ∧ (retryableGet outcomes u).err = none
        ∧ attempts (retryableGet outcomes u).events = i + 1)
    ∧ (∀ i e, i < 3 → (∀ j, j < i → ∃ e1, classify u (outcomes j) = .retryable e1) →
        classify u (outcomes i) = .fatal e →
        (retryableGet outcomes u).body = none ∧ (retryableGet outcomes u).err = some e
        ∧ attempts (retryableGet outcomes u).events = i + 1)
    ∧ (∀ e, (∀ j, j < 2 → ∃ e1, classify u (outcomes j) = .retryable e1) →
        classify u (outcomes 2) = .retryable e →
        (retryableGet outcomes u).body = none ∧ (retryableGet outcomes u).err = some e
        ∧ attempts (retryableGet outcomes u).events = 3) := by
  have h0 : attempts ([] : List Event) = 0 := rfl
  have hdef : retryableGet outcomes u = retryLoop outcomes u 3 0 none [] := rfl
  have f0 := retryLoop_final outcomes u 2 0 none []
  simp only [Nat.reduceAdd] at f0
  -- the general shape after a retryable first and second attempt
  have after1 : ∀ e0, classify u (outcomes 0) = .retryable e0 →
      ∃ evs1, retryableGet outcomes u = retryLoop outcomes u 2 1 (some e0) evs1
        ∧ attempts evs1 = 1 := by
    intro e0 h
    obtain ⟨evs1, h1, h2⟩ := retryLoop_retryable outcomes u 2 0 none [] e0 h
    exact ⟨evs1, h1, by rw [h2, h0]⟩
  have after2 : ∀ e0 e1, classify u (outcomes 0) = .retryable e0 →
      classify u (outcomes 1) = .retryable e1 →
      ∃ evs2, retryableGet outcomes u = retryLoop outcomes u 1 2 (some e1) evs2
        ∧ attempts evs2 = 2 := by
    intro e0 e1 h h'
    obtain ⟨evs1, h1, h2⟩ := after1 e0 h
    obtain ⟨evs2, h3, h4⟩ := retryLoop_retryable outcomes u 1 1 (some e0) evs1 e1 h'
    exact ⟨evs2, by rw [h1, h3], by rw [h4, h2]⟩
  have after3 : ∀ e0 e1 e2, classify u (outcomes 0) = .retryable e0 →
      classify u (outcomes 1) = .retryable e1 →
      classify u (outcomes 2) = .retryable e2 →
      ∃ evs3, retryableGet outcomes u = ⟨none, some e2, evs3⟩ ∧ attempts evs3 = 3 := by
    intro e0 e1 e2 h h' h''
    obtain ⟨evs2, h1, h2⟩ := after2 e0 e1 h h'
    obtain ⟨evs3, h3, h4⟩ := retryLoop_retryable outcomes u 0 2 (some e1) evs2 e2 h''
    exact ⟨evs3, by rw [h1, h3]; rfl, by rw [h4, h2]⟩
  refine ⟨?_, ?_, ?_, ?_⟩
  · -- at most three attempts, by cases on the three verdicts
    cases c0 : classify u (outcomes 0) with
    | success b => have := (f0.1 b c0).2.2; rw [hdef]; omega
    | fatal e => have := (f0.2 e c0).2.2; rw [hdef]; omega
    | retryable e0 =>
      obtain ⟨evs1, h1, h2⟩ := after1 e0 c0
      have f1 := retryLoop_final outcomes u 1 1 (some e0) evs1
      simp only [Nat.reduceAdd] at f1
      cases c1 : classify u (outcomes 1) with
      | success b => have := (f1.1 b c1).2.2; rw [h1]; omega
      | fatal e => have := (f1.2 e c1).2.2; rw [h1]; omega
      | retryable e1 =>
        obtain ⟨evs2, h3, h4⟩ := after2 e0 e1 c0 c1
        have f2 := retryLoop_final outcomes u 0 2 (some e1) evs2
        simp only [Nat.reduceAdd] at f2
        cases c2 : classify u (outcomes 2) with
        | success b => have := (f2.1 b c2).2.2; rw [h3]; omega
        | fatal e => have := (f2.2 e c2).2.2; rw [h3]; omega
        | retryable e2 =>
          obtain ⟨evs3, h5, h6⟩ := after3 e0 e1 e2 c0 c1 c2
          rw [h5]; exact le_of_eq h6
  · intro i b hi hprev hb
    interval_cases i
    · have := f0.1 b hb
      rw [hdef]; exact ⟨this.1, this.2.1, by rw [this.2.2, h0]⟩
    · obtain ⟨e0, c0⟩ := hprev 0 (by omega)
      obtain ⟨evs1, h1, h2⟩ := after1 e0 c0
      have := (retryLoop_final outcomes u 1 1 (some e0) evs1).1 b hb
      simp only [Nat.reduceAdd] at this
      rw [h1]; exact ⟨this.1, this.2.1, by rw [this.2.2, h2]⟩
    · obtain ⟨e0, c0⟩ := hprev 0 (by omega)
      obtain ⟨e1, c1⟩ := hprev 1 (by omega)
      obtain ⟨evs2, h1, h2⟩ := after2 e0 e1 c0 c1
      have := (retryLoop_final outcomes u 0 2 (some e1) evs2).1 b hb
      simp only [Nat.reduceAdd] at this
      rw [h1]; exact ⟨this.1, this.2.1, by rw [this.2.2, h2]⟩
  · intro i e hi hprev he
    interval_cases i
    · have := f0.2 e he
      rw [hdef]; exact ⟨this.1, this.2.1, by rw [this.2.2, h0]⟩
    · obtain ⟨e0, c0⟩ := hprev 0 (by omega)
      obtain ⟨evs1, h1, h2⟩ := after1 e0 c0
      have := (retryLoop_final outcomes u 1 1 (some e0) evs1).2 e he
      simp only [Nat.reduceAdd] at this
      rw [h1]; exact ⟨this.1, this.2.1, by rw [this.2.2, h2]⟩
    · obtain ⟨e0, c0⟩ := hprev 0 (by omega)
      obtain ⟨e1, c1⟩ := hprev 1 (by omega)
      obtain ⟨evs2, h1, h2⟩ := after2 e0 e1 c0 c1
      have := (retryLoop_final outcomes u 0 2 (some e1) evs2).2 e he
      simp only [Nat.reduceAdd] at this
      rw [h1]; exact ⟨this.1, this.2.1, by rw [this.2.2, h2]⟩
  · intro e hprev he
    obtain ⟨e0, c0⟩ := hprev 0 (by omega)
    obtain ⟨e1, c1⟩ := hprev 1 (by omega)
    obtain ⟨evs3, h5, h6⟩ := after3 e0 e1 e c0 c1 he
    rw [h5]; exact ⟨rfl, rfl, h6⟩

/-- C2 at a concrete input: a transport failure, then a 503, then a 200 with
body `{}`: the call returns that body and no error after three attempts. -/
theorem retryableGet_first_final_witness :
    (retryableGet (fun k => if k = 0 then Attempt.transportError ⟨"timeout"⟩
        else if k = 1 then Attempt.response 503 (.ok [])
        else Attempt.response 200 (.ok [123, 125])) "https://pokeapi.co/api/v2/pokemon/1").body
      = some [123, 125]
    ∧ (retryableGet (fun k => if k = 0 then Attempt.transportError ⟨"timeout"⟩
        else if k = 1 then Attempt.response 503 (.ok [])
        else Attempt.response 200 (.ok [123, 125])) "https://pokeapi.co/api/v2/pokemon/1").err
      = none
    ∧ attempts (retryableGet (fun k => if k = 0 then Attempt.transportError ⟨"timeout"⟩
        else if k = 1 then Attempt.response 503 (.ok [])
        else Attempt.response 200 (.ok [123, 125]))
          "https://pokeapi.co/api/v2/pokemon/1").events = 2 + 1 :=
  (retryableGet_first_final (fun k => if k = 0 then Attempt.transportError ⟨"timeout"⟩
        else if k = 1 then Attempt.response 503 (.ok [])
        else Attempt.response 200 (.ok [123, 125])) "https://pokeapi.co/api/v2/pokemon/1").2.1
    2 [123, 125] (by decide)
    (by
      intro j hj
      interval_cases j
      · exact ⟨_, rfl⟩
      · exact ⟨_, rfl⟩)
    rfl

/-- C3: when the first response has a status `s` with `400 ≤ s < 500`, exactly
one attempt is made and one request sent, the only wait is the initial one of 0
seconds (total backoff 0), and the call returns no bytes and the error
`failed to retrieve data from URL <u> (code: <s>)`, whose message contains both
the URL and the status code. -/
theorem retryableGet_client_error (outcomes : Nat → Attempt) (u : String) (s : Int)
    (body : Except Error Bytes) (h0 : outcomes 0 = .response s body)
    (h4 : 400 ≤ s) (h5 : s < 500) :
    (retryableGet outcomes u).body = none
    ∧ (retryableGet outcomes u).err
        = some ⟨"failed to retrieve data from URL " ++ u ++ " (code: " ++ toString s ++ ")"⟩
    ∧ (retryableGet outcomes u).events
        = [Event.sleep 0, Event.newRequest u, Event.send u]
    ∧ attempts (retryableGet outcomes u).events = 1
    ∧ requestsSent (retryableGet outcomes u).events = 1
    ∧ (waits (retryableGet outcomes u).events).sum = 0
    ∧ (∃ msg, (retryableGet outcomes u).err = some ⟨msg⟩
        ∧ u.data <:+: msg.data ∧ (toString s).data <:+: msg.data) := by
  have h5n : ¬ (500 ≤ s) := by omega
  have hr : retryableGet outcomes u
      = ⟨none, some ⟨"failed to retrieve data from URL " ++ u ++ " (code: "
          ++ toString s ++ ")"⟩, [Event.sleep 0, Event.newRequest u, Event.send u]⟩ := by
    simp [retryableGet, httpRetries, retryLoop, h0, h5n, h4]
  rw [hr]
  refine ⟨rfl, rfl, rfl, ?_, ?_, ?_, ?_⟩
  · simp [attempts, List.countP_cons]
  · simp [requestsSent, List.countP_cons]
  · simp [waits, List.filterMap_cons]
  · refine ⟨_, rfl, ?_, ?_⟩
    · simp only [String.data_append]
      exact ⟨"failed to retrieve data from URL ".data,
        " (code: ".data ++ (toString s).data ++ ")".data, by simp [List.append_assoc]⟩
    · simp only [String.data_append]
      exact ⟨"failed to retrieve data from URL ".data ++ u.data ++ " (code: ".data,
        ")".data, by simp [List.append_assoc]⟩

/-- C3 at a concrete input: a 404 on the first response. -/
theorem retryableGet_client_error_witness :
    (retryableGet (fun _ => Attempt.response 404 (.ok [])) "https://pokeapi.co/api/v2/x").err
      = some ⟨"failed to retrieve data from URL https://pokeapi.co/api/v2/x (code: 404)"⟩
    ∧ attempts
        (retryableGet (fun _ => Attempt.response 404 (.ok [])) "https://pokeapi.co/api/v2/x").events
      = 1
    ∧ (waits
        (retryableGet (fun _ => Attempt.response 404 (.ok []))
          "https://pokeapi.co/api/v2/x").events).sum = 0 :=
  have h := retryableGet_client_error (fun _ => Attempt.response 404 (.ok []))
    "https://pokeapi.co/api/v2/x" 404 (.ok []) rfl (by decide) (by decide)
  ⟨h.2.1.trans (by decide), h.2.2.2.1, h.2.2.2.2.2.1⟩

/-- C4: when the three responses have statuses `s1`, `s2`, `s3`, all at least
500, exactly three attempts are made, each preceded by its wait: 0, 1 and 4
seconds in that order (the attempt index squared, 5 seconds in total); the call
returns no bytes and the server error recorded for `s3`. -/
theorem retryableGet_three_server_errors (outcomes : Nat → Attempt) (u : String)
    (s1 s2 s3 : Int) (b1 b2 b3 : Except Error Bytes)
    (h0 : outcomes 0 = .response s1 b1) (h1 : outcomes 1 = .response s2 b2)
    (h2 : outcomes 2 = .response s3 b3)
    (g1 : 500 ≤ s1) (g2 : 500 ≤ s2) (g3 : 500 ≤ s3) :
    (retryableGet outcomes u).events
        = [Event.sleep 0, Event.newRequest u, Event.send u,
           Event.sleep 1, Event.newRequest u, Event.send u,
           Event.sleep 4, Event.newRequest u, Event.send u]
    ∧ attempts (retryableGet outcomes u).events = 3
    ∧ requestsSent (retryableGet outcomes u).events = 3
    ∧ waits (retryableGet outcomes u).events = [0 * 0, 1 * 1, 2 * 2]
    ∧ (waits (retryableGet outcomes u).events).sum = 5
    ∧ (retryableGet outcomes u).body = none
    ∧ (retryableGet outcomes u).err
        = some ⟨"server returned error (code: " ++ toString s3 ++ ")"⟩ := by
  have hr : retryableGet outcomes u
      = ⟨none, some ⟨"server returned error (code: " ++ toString s3 ++ ")"⟩,
          [Event.sleep 0, Event.newRequest u, Event.send u,
           Event.sleep 1, Event.newRequest u, Event.send u,
           Event.sleep 4, Event.newRequest u, Event.send u]⟩ := by
    simp [retryableGet, httpRetries, retryLoop, h0, h1, h2, g1, g2, g3]
  rw [hr]
  refine ⟨rfl, ?_, ?_, ?_, ?_, rfl, rfl⟩
  · simp [attempts, List.countP_cons]
  · simp [requestsSent, List.countP_cons]
  · simp [waits, List.filterMap_cons]
  · simp [waits, List.filterMap_cons]

/-- C4 at a concrete input: 500, 502, 503. -/
theorem retryableGet_three_server_errors_witness :
    waits (retryableGet (fun k => if k = 0 then Attempt.response 500 (.ok [])
        else if k = 1 then Attempt.response 502 (.ok [])
        else Attempt.response 503 (.ok [])) "u").events = [0, 1, 4]
    ∧ (retryableGet (fun k => if k = 0 then Attempt.response 500 (.ok [])
        else if k = 1 then Attempt.response 502 (.ok [])
        else Attempt.response 503 (.ok [])) "u").err
      = some ⟨"server returned error (code: 503)"⟩ :=
  have h := retryableGet_three_server_errors (fun k => if k = 0 then Attempt.response 500 (.ok [])
        else if k = 1 then Attempt.response 502 (.ok [])
        else Attempt.response 503 (.ok [])) "u" 500 502 503 (.ok []) (.ok []) (.ok [])
      rfl rfl rfl (by decide) (by decide) (by decide)
  ⟨h.2.2.2.1, h.2.2.2.2.2.2.trans (by decide)⟩

/-! ## The request orchestrator -/

/-- When `do` does not take the cached value, it is the fetch path: one call of
`retryableGet` on `buildURL endpoint`, then, by the returned error, either that
error with the state and the object untouched, or the cache write and the
decoding of the fetched body. -/
theorem do_fetch_path {α : Type} (unmarshal : Bytes → α → Option Error × α) (env : Env)
    (st : State) (endpoint : String) (obj : α)
    (h : cacheGet st.c env.now endpoint = none ∨ st.UseCache = false) :
    «do» unmarshal env st endpoint obj =
      match (retryableGet env.outcomes (buildURL st endpoint)).err with
      | some err => ⟨st, obj, some err, [buildURL st endpoint],
          (retryableGet env.outcomes (buildURL st endpoint)).events⟩
      | none =>
        ⟨setCache st endpoint ((retryableGet env.outcomes (buildURL st endpoint)).body.getD [])
            env.expiration,
          (unmarshal ((retryableGet env.outcomes (buildURL st endpoint)).body.getD []) obj).2,
          (unmarshal ((retryableGet env.outcomes (buildURL st endpoint)).body.getD []) obj).1,
          [buildURL st endpoint],
          (retryableGet env.outcomes (buildURL st endpoint)).events⟩ := by
  unfold «do»
  rcases h with h | h
  · rw [h]
  · rw [h]
    cases cacheGet st.c env.now endpoint <;> rfl

/-- When the cache is in use and holds an unexpired entry, `do` decodes the
cached bytes and calls nothing else. -/
theorem do_cached_path {α : Type} (unmarshal : Bytes → α → Option Error × α) (env : Env)
    (st : State) (endpoint : String) (obj : α) (cached : Bytes)
    (h : cacheGet st.c env.now endpoint = some cached) (hu : st.UseCache = true) :
    «do» unmarshal env st endpoint obj
      = ⟨st, (unmarshal cached obj).2, (unmarshal cached obj).1, [], []⟩ := by
  unfold «do»
  rw [h, hu]

/-- C1: let `E` be absent from the cache, the fetch of `buildURL E` return `B`
with no error, and `B` decode successfully. Then `do E out` returns no error
and leaves in `out` the decoding of `B`. From any later state with the same
cache and use-cache enabled, at a time when the entry has not expired,
`do E out2` returns no error, leaves in `out2` the decoding of `B` (the same
value when `out2` starts as `out` did), never calls the fetcher, and sends,
sleeps and writes nothing. -/
theorem do_then_cached {α : Type} (unmarshal : Bytes → α → Option Error × α)
    (env1 env2 : Env) (st st2 : State) (E : String) (B : Bytes) (out out2 : α)
    (hmiss : cacheGet st.c env1.now E = none)
    (hbody : (retryableGet env1.outcomes (buildURL st E)).body = some B)
    (herr : (retryableGet env1.outcomes (buildURL st E)).err = none)
    (hdec : (unmarshal B out).1 = none)
    (hdec2 : (unmarshal B out2).1 = none)
    (hcache : st2.c = («do» unmarshal env1 st E out).st.c)
    (huse : st2.UseCache = true)
    (hfresh : env2.now ≤ env1.expiration) :
    («do» unmarshal env1 st E out).err = none
    ∧ («do» unmarshal env1 st E out).obj = (unmarshal B out).2
    ∧ («do» unmarshal env2 st2 E out2).err = none
    ∧ («do» unmarshal env2 st2 E out2).obj = (unmarshal B out2).2
    ∧ (out2 = out →
        («do» unmarshal env2 st2 E out2).obj = («do» unmarshal env1 st E out).obj)
    ∧ («do» unmarshal env2 st2 E out2).fetched = []
    ∧ («do» unmarshal env2 st2 E out2).events = []
    ∧ («do» unmarshal env2 st2 E out2).st = st2 := by
  have h1 := do_fetch_path unmarshal env1 st E out (Or.inl hmiss)
  rw [herr, hbody] at h1
  simp only [Option.getD_some] at h1
  have hget : cacheGet st2.c env2.now E = some B := by
    rw [hcache, h1]
    simp [cacheGet, setCache, hfresh]
  have h2 := do_cached_path unmarshal env2 st2 E out2 B hget huse
  rw [h1, h2]
  refine ⟨hdec, rfl, hdec2, rfl, ?_, rfl, rfl, rfl⟩
  intro ho
  rw [ho]


/-- C1 at a concrete input: `pokemon/1` is fetched (200, body `{}`) at time 0
with expiry 10; at time 5, with the network down, the second call still
succeeds with the same decoded value and fetches nothing. -/
theorem do_then_cached_witness :
    («do» sampleDecoder sampleEnvOk (initialState true) "pokemon/1" []).err = none
    ∧ («do» sampleDecoder sampleEnvDown
        («do» sampleDecoder sampleEnvOk (initialState true) "pokemon/1" []).st
        "pokemon/1" []).err = none
    ∧ («do» sampleDecoder sampleEnvDown
        («do» sampleDecoder sampleEnvOk (initialState true) "pokemon/1" []).st
        "pokemon/1" []).obj = [123, 125]
    ∧ («do» sampleDecoder sampleEnvDown
        («do» sampleDecoder sampleEnvOk (initialState true) "pokemon/1" []).st
        "pokemon/1" []).fetched = [] :=
  have h := do_then_cached sampleDecoder sampleEnvOk sampleEnvDown (initialState true)
    («do» sampleDecoder sampleEnvOk (initialState true) "pokemon/1" []).st
    "pokemon/1" [123, 125] [] [] rfl rfl rfl rfl rfl rfl rfl (by decide)
  ⟨h.1, h.2.2.1, h.2.2.2.1, h.2.2.2.2.2.1⟩

/-- C8: whenever `do` reaches the fetch (the endpoint is not cached, or
use-cache is disabled), it calls the fetcher exactly once, on `buildURL E`,
even when `E` is already cached; and if the fetch returns `B` with no error,
then when `do` returns the cache holds `B` under `E` (with the expiry drawn for
it, so `get` returns `B` until then) and every other key is as before,
whatever the decoder answers. -/
theorem do_stores_fetched {α : Type} (unmarshal : Bytes → α → Option Error × α)
    (env : Env) (st : State) (E : String) (out : α)
    (hreach : cacheGet st.c env.now E = none ∨ st.UseCache = false) :
    («do» unmarshal env st E out).fetched = [buildURL st E]
    ∧ (∀ B, (retryableGet env.outcomes (buildURL st E)).body = some B →
        (retryableGet env.outcomes (buildURL st E)).err = none →
        («do» unmarshal env st E out).st.c E = some ⟨B, env.expiration⟩
        ∧ (∀ t, t ≤ env.expiration → cacheGet («do» unmarshal env st E out).st.c t E = some B)
        ∧ (∀ k, k ≠ E → («do» unmarshal env st E out).st.c k = st.c k)
        ∧ («do» unmarshal env st E out).err = (unmarshal B out).1
        ∧ («do» unmarshal env st E out).obj = (unmarshal B out).2) := by
  have h1 := do_fetch_path unmarshal env st E out hreach
  constructor
  · rw [h1]
    cases (retryableGet env.outcomes (buildURL st E)).err <;> rfl
  · intro B hbody herr
    rw [herr, hbody] at h1
    simp only [Option.getD_some] at h1
    rw [h1]
    refine ⟨by simp [setCache], ?_, ?_, rfl, rfl⟩
    · intro t ht
      simp [cacheGet, setCache, ht]
    · intro k hk
      simp [setCache, hk]


/-- C8 at a concrete input: use-cache is disabled, `pokemon/1` is cached with
bytes `[1]`, the fetch returns `{}` and the decoder fails: the fetcher was
called once and the cache now holds `{}` under `pokemon/1`. -/
theorem do_stores_fetched_witness :
    («do» failingDecoder sampleEnvOk sampleCachedState "pokemon/1" []).fetched
      = ["https://pokeapi.co/api/v2/pokemon/1"]
    ∧ («do» failingDecoder sampleEnvOk sampleCachedState "pokemon/1" []).st.c "pokemon/1"
      = some ⟨[123, 125], 10⟩
    ∧ («do» failingDecoder sampleEnvOk sampleCachedState "pokemon/1" []).err
      = some ⟨"unexpected end of JSON input"⟩
    ∧ cacheGet sampleCachedState.c 0 "pokemon/1" = some [1] :=
  have h := do_stores_fetched failingDecoder sampleEnvOk sampleCachedState "pokemon/1" []
    (Or.inr rfl)
  have h2 := h.2 [123, 125] rfl rfl
  ⟨h.1, h2.1, h2.2.2.2.1, rfl⟩

/-- C9: when `do` reaches the fetch and `retryableGet (buildURL E)` returns an
error `e`, `do` returns exactly `e`, has called the fetcher exactly once, with
no effect beyond that one call, leaves the whole state (every cache entry
included) unchanged, and leaves `out` as it was. -/
theorem do_fetch_error {α : Type} (unmarshal : Bytes → α → Option Error × α)
    (env : Env) (st : State) (E : String) (out : α) (e : Error)
    (hreach : cacheGet st.c env.now E = none ∨ st.UseCache = false)
    (herr : (retryableGet env.outcomes (buildURL st E)).err = some e) :
    («do» unmarshal env st E out).err = some e
    ∧ («do» unmarshal env st E out).fetched = [buildURL st E]
    ∧ («do» unmarshal env st E out).events
        = (retryableGet env.outcomes (buildURL st E)).events
    ∧ («do» unmarshal env st E out).st = st
    ∧ (∀ k, («do» unmarshal env st E out).st.c k = st.c k)
    ∧ («do» unmarshal env st E out).obj = out := by
  have h1 := do_fetch_path unmarshal env st E out hreach
  rw [herr] at h1
  rw [h1]
  exact ⟨rfl, rfl, rfl, rfl, fun _ => rfl, rfl⟩


/-- C9 at a concrete input: the network is down for all three attempts; `do`
returns the transport error, the cache is still empty and the object is as it
was. -/
theorem do_fetch_error_witness :
    («do» sampleDecoder sampleEnvDown (initialState true) "pokemon/1" [7]).err
      = some ⟨"connection refused"⟩
    ∧ («do» sampleDecoder sampleEnvDown (initialState true) "pokemon/1" [7]).fetched
      = ["https://pokeapi.co/api/v2/pokemon/1"]
    ∧ («do» sampleDecoder sampleEnvDown (initialState true) "pokemon/1" [7]).st.c "pokemon/1"
      = none
    ∧ («do» sampleDecoder sampleEnvDown (initialState true) "pokemon/1" [7]).obj = [7] :=
  have h := do_fetch_error sampleDecoder sampleEnvDown (initialState true) "pokemon/1" [7]
    ⟨"connection refused"⟩ (Or.inl rfl) rfl
  ⟨h.1, h.2.1, h.2.2.2.2.1 "pokemon/1", h.2.2.2.2.2⟩

end Pokeapi
